import Mathlib

/-!
Verification of the software-rasterizer core of the Proyecto3SistemaSolar
repository against its natural-language specification.

The Rust source (src/triangle.rs, src/shaders.rs, src/main.rs) is embedded
shallowly: `f32` values are modelled as exact rationals (`ℚ`); the calls to
`f32::sqrt`, `sin`, `cos`, `powf` are modelled as explicit function
parameters (they are fixed pure functions of their arguments); the mutable
`Vec` accumulation loops become list combinators carrying the same order of
effects; Rust integer casts keep their saturating semantics.
-/

set_option maxRecDepth 4000

/-- 2-component vector (`raylib` `Vector2` as used for fragment positions). -/
structure Vec2 where
  x : ℚ
  y : ℚ
deriving DecidableEq, Repr

/-- 3-component vector (`raylib` `Vector3`). -/
structure Vec3 where
  x : ℚ
  y : ℚ
  z : ℚ
deriving DecidableEq, Repr

/-- 4-component vector (`raylib` `Vector4`). -/
structure Vec4 where
  x : ℚ
  y : ℚ
  z : ℚ
  w : ℚ
deriving DecidableEq, Repr

/-- Componentwise addition, as implemented by `raylib` for `Vector3`. -/
instance : Add Vec3 where
  add a b := ⟨a.x + b.x, a.y + b.y, a.z + b.z⟩

/-- Componentwise subtraction, as implemented by `raylib` for `Vector3`. -/
instance : Sub Vec3 where
  sub a b := ⟨a.x - b.x, a.y - b.y, a.z - b.z⟩

/-- Componentwise (Hadamard) product, as implemented by `raylib`
for `Vector3 * Vector3`. -/
instance : Mul Vec3 where
  mul a b := ⟨a.x * b.x, a.y * b.y, a.z * b.z⟩

/-- Scaling `Vector3 * f32`, as implemented by `raylib`. -/
instance : HMul Vec3 ℚ Vec3 where
  hMul a k := ⟨a.x * k, a.y * k, a.z * k⟩

/-- Scaling `f32 * Vector3` (used when a weight multiplies a vector). -/
instance : HMul ℚ Vec3 Vec3 where
  hMul k a := ⟨k * a.x, k * a.y, k * a.z⟩

/-- `vertex.rs` `Vertex`: immutable input attributes plus the two
pipeline-filled fields. -/
structure Vertex where
  position : Vec3
  normal : Vec3
  tex_coords : Vec2
  color : Vec3
  transformed_position : Vec3
  transformed_normal : Vec3
deriving DecidableEq, Repr

/-- `fragment.rs` `Fragment` (`new_with_world_pos` constructor layout):
screen position, shaded color, interpolated depth, interpolated world
position. -/
structure Fragment where
  position : Vec2
  color : Vec3
  depth : ℚ
  world_position : Vec3
deriving DecidableEq, Repr

/-- `light.rs` `Light`: a single point-light position. -/
structure Light where
  position : Vec3
deriving DecidableEq, Repr

/-- `nalgebra_glm` `Mat4` viewed through `as_slice()`: sixteen entries in
column-major order, `e(4*col+row)` holding the entry at (row, col). -/
structure GlmMat4 where
  e0 : ℚ
  e1 : ℚ
  e2 : ℚ
  e3 : ℚ
  e4 : ℚ
  e5 : ℚ
  e6 : ℚ
  e7 : ℚ
  e8 : ℚ
  e9 : ℚ
  e10 : ℚ
  e11 : ℚ
  e12 : ℚ
  e13 : ℚ
  e14 : ℚ
  e15 : ℚ
deriving DecidableEq, Repr

/-- `raylib` `Matrix` with fields `m0`..`m15`. -/
structure RayMatrix where
  m0 : ℚ
  m1 : ℚ
  m2 : ℚ
  m3 : ℚ
  m4 : ℚ
  m5 : ℚ
  m6 : ℚ
  m7 : ℚ
  m8 : ℚ
  m9 : ℚ
  m10 : ℚ
  m11 : ℚ
  m12 : ℚ
  m13 : ℚ
  m14 : ℚ
  m15 : ℚ
deriving DecidableEq, Repr

/-- `main.rs` `Uniforms`: the transform bundle plus scene time. -/
structure Uniforms where
  model_matrix : GlmMat4
  view_matrix : GlmMat4
  projection_matrix : GlmMat4
  viewport_matrix : GlmMat4
  time : ℚ
deriving DecidableEq, Repr

/-- `shaders.rs` `PlanetShaderType`: the closed set of material tags. -/
inductive PlanetShaderType where
  | Terra
  | Vulcan
  | Solarius
  | Nepturion
  | Mossar
deriving DecidableEq, Repr

/-- `shaders.rs` `glm_to_raylib`: copies the column-major slice of a
`glm::Mat4` into the sixteen `raylib::Matrix` fields, in order. -/
def glm_to_raylib (mat : GlmMat4) : RayMatrix :=
  { m0 := mat.e0, m1 := mat.e1, m2 := mat.e2, m3 := mat.e3,
    m4 := mat.e4, m5 := mat.e5, m6 := mat.e6, m7 := mat.e7,
    m8 := mat.e8, m9 := mat.e9, m10 := mat.e10, m11 := mat.e11,
    m12 := mat.e12, m13 := mat.e13, m14 := mat.e14, m15 := mat.e15 }

/-- `shaders.rs` `multiply_matrix_vector4`: 4x4 matrix times 4-vector using
the `raylib` field layout. -/
def multiply_matrix_vector4 (matrix : RayMatrix) (vector : Vec4) : Vec4 :=
  ⟨matrix.m0 * vector.x + matrix.m4 * vector.y + matrix.m8 * vector.z + matrix.m12 * vector.w,
   matrix.m1 * vector.x + matrix.m5 * vector.y + matrix.m9 * vector.z + matrix.m13 * vector.w,
   matrix.m2 * vector.x + matrix.m6 * vector.y + matrix.m10 * vector.z + matrix.m14 * vector.w,
   matrix.m3 * vector.x + matrix.m7 * vector.y + matrix.m11 * vector.z + matrix.m15 * vector.w⟩

/-- `shaders.rs` lines 69-78: perspective division `(x/w, y/w, z/w)`
guarded by `clip_position.w != 0.0`; a zero w passes the clip coordinates
through unmodified. -/
def perspectiveDivideSrc (clip_position : Vec4) : Vec3 :=
  if clip_position.w ≠ 0 then
    ⟨clip_position.x / clip_position.w, clip_position.y / clip_position.w,
     clip_position.z / clip_position.w⟩
  else
    ⟨clip_position.x, clip_position.y, clip_position.z⟩

/-- `shaders.rs` `vertex_shader`: model, view, projection, perspective
division guarded by `w != 0`, then viewport; normal passed through. -/
def vertex_shader (vertex : Vertex) (uniforms : Uniforms) : Vertex :=
  let model_mat := glm_to_raylib uniforms.model_matrix
  let view_mat := glm_to_raylib uniforms.view_matrix
  let proj_mat := glm_to_raylib uniforms.projection_matrix
  let viewport_mat := glm_to_raylib uniforms.viewport_matrix
  let position_vec4 : Vec4 := ⟨vertex.position.x, vertex.position.y, vertex.position.z, 1⟩
  let world_position := multiply_matrix_vector4 model_mat position_vec4
  let view_position := multiply_matrix_vector4 view_mat world_position
  let clip_position := multiply_matrix_vector4 proj_mat view_position
  let ndc : Vec3 := perspectiveDivideSrc clip_position
  let ndc_vec4 : Vec4 := ⟨ndc.x, ndc.y, ndc.z, 1⟩
  let screen_position := multiply_matrix_vector4 viewport_mat ndc_vec4
  { position := vertex.position,
    normal := vertex.normal,
    tex_coords := vertex.tex_coords,
    color := vertex.color,
    transformed_position := ⟨screen_position.x, screen_position.y, screen_position.z⟩,
    transformed_normal := vertex.normal }

/-- Standard mathematical matrix-vector product on the column-major glm
entries: row r of the result is the sum over columns c of entry (r, c)
times component c.  Used as the spec-side formulation for claim C4. -/
def specMatVec (m : GlmMat4) (v : Vec4) : Vec4 :=
  ⟨m.e0 * v.x + m.e4 * v.y + m.e8 * v.z + m.e12 * v.w,
   m.e1 * v.x + m.e5 * v.y + m.e9 * v.z + m.e13 * v.w,
   m.e2 * v.x + m.e6 * v.y + m.e10 * v.z + m.e14 * v.w,
   m.e3 * v.x + m.e7 * v.y + m.e11 * v.z + m.e15 * v.w⟩

/-- Spec-side perspective division, following the words of claim C4:
divide unless w is exactly zero, in which case the unmodified clip
coordinates pass through. -/
def perspectiveDivideSpec (clip : Vec4) : Vec3 :=
  if clip.w = 0 then ⟨clip.x, clip.y, clip.z⟩
  else ⟨clip.x / clip.w, clip.y / clip.w, clip.z / clip.w⟩

/-- Spec-side formulation of the vertex transform chain, following the
words of claim C4: homogeneous lift with w = 1; model, then view, then
projection; perspective division unless w is exactly zero; then the
viewport transform. -/
def vertexShaderSpecPosition (p : Vec3) (u : Uniforms) : Vec3 :=
  let clip := specMatVec u.projection_matrix
    (specMatVec u.view_matrix (specMatVec u.model_matrix ⟨p.x, p.y, p.z, 1⟩))
  let ndc : Vec3 := perspectiveDivideSpec clip
  let screen := specMatVec u.viewport_matrix ⟨ndc.x, ndc.y, ndc.z, 1⟩
  ⟨screen.x, screen.y, screen.z⟩

/-- The model-transformed (world-space) position of a vertex, as computed
at `shaders.rs` line 65 (`world_position = model * (position, 1)`). -/
def worldPositionOf (v : Vertex) (u : Uniforms) : Vec3 :=
  let w := multiply_matrix_vector4 (glm_to_raylib u.model_matrix)
    ⟨v.position.x, v.position.y, v.position.z, 1⟩
  ⟨w.x, w.y, w.z⟩

/-- The barycentric denominator of `triangle.rs` line 16:
`(b_y - c_y) * (a_x - c_x) + (c_x - b_x) * (a_y - c_y)` over the
transformed (screen) positions. -/
def baryDenom (a b c : Vertex) : ℚ :=
  (b.transformed_position.y - c.transformed_position.y)
      * (a.transformed_position.x - c.transformed_position.x)
    + (c.transformed_position.x - b.transformed_position.x)
      * (a.transformed_position.y - c.transformed_position.y)

/-- `triangle.rs` `barycentric_coordinates`: rejects a near-zero
denominator (absolute value below 1e-10) and any weight outside [0, 1],
with the third weight derived as `1 - w1 - w2` and rejected when
negative. -/
def barycentric_coordinates (p_x p_y : ℚ) (a b c : Vertex) :
    Option (ℚ × ℚ × ℚ) :=
  let a_x := a.transformed_position.x
  let a_y := a.transformed_position.y
  let b_x := b.transformed_position.x
  let b_y := b.transformed_position.y
  let c_x := c.transformed_position.x
  let c_y := c.transformed_position.y
  let denom := (b_y - c_y) * (a_x - c_x) + (c_x - b_x) * (a_y - c_y)
  if |denom| < 1 / 10000000000 then none
  else
    let w1 := ((b_y - c_y) * (p_x - c_x) + (c_x - b_x) * (p_y - c_y)) / denom
    if w1 < 0 ∨ w1 > 1 then none
    else
      let w2 := ((c_y - a_y) * (p_x - c_x) + (a_x - c_x) * (p_y - c_y)) / denom
      if w2 < 0 ∨ w2 > 1 then none
      else
        let w3 := 1 - w1 - w2
        if w3 < 0 then none
        else some (w1, w2, w3)

/-- `triangle.rs` line 50: the three vertices stably sorted by ascending
transformed y (Rust `sort_by` is a stable sort; with three elements it is
this insertion sort, equal keys keeping their input order). -/
def sort3 (v1 v2 v3 : Vertex) : Vertex × Vertex × Vertex :=
  if v2.transformed_position.y < v1.transformed_position.y then
    if v3.transformed_position.y < v2.transformed_position.y then (v3, v2, v1)
    else if v3.transformed_position.y < v1.transformed_position.y then (v2, v3, v1)
    else (v2, v1, v3)
  else
    if v3.transformed_position.y < v1.transformed_position.y then (v3, v1, v2)
    else if v3.transformed_position.y < v2.transformed_position.y then (v1, v3, v2)
    else (v1, v2, v3)

/-- `triangle.rs` lines 55-60: the backface cross product
`edge1_x * edge2_y - edge1_y * edge2_x` computed on the y-sorted
(top, mid, bottom) triple. -/
def cullCross (v1 v2 v3 : Vertex) : ℚ :=
  ((sort3 v1 v2 v3).2.1.transformed_position.x
      - (sort3 v1 v2 v3).1.transformed_position.x)
    * ((sort3 v1 v2 v3).2.2.transformed_position.y
      - (sort3 v1 v2 v3).1.transformed_position.y)
  - ((sort3 v1 v2 v3).2.1.transformed_position.y
      - (sort3 v1 v2 v3).1.transformed_position.y)
    * ((sort3 v1 v2 v3).2.2.transformed_position.x
      - (sort3 v1 v2 v3).1.transformed_position.x)

/-- The inclusive integer range `lo..=hi` of a Rust for loop (empty when
`hi < lo`). -/
def intRange (lo hi : ℤ) : List ℤ :=
  (List.range (hi + 1 - lo).toNat).map (fun k => lo + k)

/-- `triangle.rs` lines 79-97: x-intersections of the scanline at height
`y_f` with the given edges, skipping near-horizontal edges
(|y2 - y1| < 0.01) and edges whose y-range does not contain `y_f`. -/
def edgeIntersections (y_f : ℚ) (es : List (Vertex × Vertex)) : List ℚ :=
  es.filterMap (fun e =>
    let y1 := e.1.transformed_position.y
    let y2 := e.2.transformed_position.y
    if |y2 - y1| < 1 / 100 then none
    else if (y_f ≥ y1 ∧ y_f < y2) ∨ (y_f ≥ y2 ∧ y_f < y1) then
      some (e.1.transformed_position.x
        + ((y_f - y1) / (y2 - y1))
          * (e.2.transformed_position.x - e.1.transformed_position.x))
    else none)

/-- Barycentric-weighted combination of three vectors (`triangle.rs`
interpolation pattern for normals and world positions). -/
def interpVec3 (w1 w2 w3 : ℚ) (a b c : Vec3) : Vec3 :=
  ⟨w1 * a.x + w2 * b.x + w3 * c.x,
   w1 * a.y + w2 * b.y + w3 * c.y,
   w1 * a.z + w2 * b.z + w3 * c.z⟩

/-- `triangle.rs` lines 118-130: divide a vector by the square root of its
squared length when that length is positive, otherwise pass it through
unnormalized.  `sq` models `f32::sqrt`. -/
def normalizeOrKeep (sq : ℚ → ℚ) (n : Vec3) : Vec3 :=
  let len := sq (n.x * n.x + n.y * n.y + n.z * n.z)
  if 0 < len then ⟨n.x / len, n.y / len, n.z / len⟩ else n

/-- `triangle.rs` lines 144-150: divide a vector by the square root of its
squared length when that length is positive, otherwise yield the zero
vector.  Used for the light direction.  `sq` models `f32::sqrt`. -/
def normalize3 (sq : ℚ → ℚ) (v : Vec3) : Vec3 :=
  let len := sq (v.x * v.x + v.y * v.y + v.z * v.z)
  if 0 < len then ⟨v.x / len, v.y / len, v.z / len⟩ else ⟨0, 0, 0⟩

/-- Dot product of two 3-vectors. -/
def dot3 (a b : Vec3) : ℚ :=
  a.x * b.x + a.y * b.y + a.z * b.z

/-- `triangle.rs` lines 108-167, body of the inner pixel loop: barycentric
test against the original (unsorted) vertex triple, then interpolation of
normal, world position and depth, the diffuse lighting term against the
fixed base gray (0.5, 0.5, 0.5), and construction of the fragment. -/
def pixelFrag (sq : ℚ → ℚ) (v1 v2 v3 : Vertex) (light : Light)
    (p_x y_f : ℚ) : Option Fragment :=
  match barycentric_coordinates p_x y_f v1 v2 v3 with
  | none => none
  | some (w1, w2, w3) =>
    let normalized_normal :=
      normalizeOrKeep sq (interpVec3 w1 w2 w3 v1.normal v2.normal v3.normal)
    let world_pos := interpVec3 w1 w2 w3 v1.position v2.position v3.position
    let light_dir := normalize3 sq
      ⟨light.position.x - world_pos.x, light.position.y - world_pos.y,
       light.position.z - world_pos.z⟩
    let intensity := max (dot3 normalized_normal light_dir) 0
    some { position := ⟨p_x, y_f⟩,
           color := ⟨(1/2) * intensity, (1/2) * intensity, (1/2) * intensity⟩,
           depth := w1 * v1.transformed_position.z
             + w2 * v2.transformed_position.z
             + w3 * v3.transformed_position.z,
           world_position := world_pos }

/-- `triangle.rs` lines 72-168, one scanline: collect the x-intersections
of the three (cyclic) sorted edges, give up when fewer than two, otherwise
rasterize every pixel between floor(min) and ceil(max) of the first two. -/
def scanlineFrags (sq : ℚ → ℚ) (v1 v2 v3 : Vertex) (light : Light)
    (top mid bottom : Vertex) (y : ℤ) : List Fragment :=
  match edgeIntersections ((y : ℚ) + 1/2) [(top, mid), (mid, bottom), (bottom, top)] with
  | x0 :: x1 :: _ =>
    (intRange ⌊min x0 x1⌋ ⌈max x0 x1⌉).filterMap
      (fun (x : ℤ) => pixelFrag sq v1 v2 v3 light ((x : ℚ) + 1/2) ((y : ℚ) + 1/2))
  | _ => []

/-- `triangle.rs` `triangle`: backface cull on the y-sorted cross product,
then scanline rasterization between the top and bottom y bounds. -/
def triangle (sq : ℚ → ℚ) (v1 v2 v3 : Vertex) (light : Light) :
    List Fragment :=
  if cullCross v1 v2 v3 ≤ 0 then []
  else
    (intRange ⌊(sort3 v1 v2 v3).1.transformed_position.y⌋
        ⌈(sort3 v1 v2 v3).2.2.transformed_position.y⌉).flatMap
      (fun y => scanlineFrags sq v1 v2 v3 light
        (sort3 v1 v2 v3).1 (sort3 v1 v2 v3).2.1 (sort3 v1 v2 v3).2.2 y)

/-- The pure `f32` library functions the procedural shaders call.  Each is
a fixed deterministic function of its arguments; their numeric values are
irrelevant to the claims proved here. -/
structure FOps where
  sin : ℚ → ℚ
  cos : ℚ → ℚ
  sqrt : ℚ → ℚ
  powf : ℚ → ℚ → ℚ

/-- Rust `f32::clamp(self, lo, hi)`. -/
def clampQ (x lo hi : ℚ) : ℚ :=
  if x < lo then lo else if x > hi then hi else x

/-- `shaders.rs` `shader_terra`. -/
def shader_terra (ops : FOps) (fragment : Fragment) (time : ℚ) : Vec3 :=
  let p := fragment.world_position
  let base_color := fragment.color
  let ocean := ops.powf (ops.sin (p.x * 0.8 + p.y * 1.2 + time * 0.5) * 0.5 + 0.5) 1.8
  let land := |ops.cos (p.x * 2.1 + p.z * 1.4 - time * 0.2) * ops.sin (p.y * 1.5)|
  let clouds := ops.powf (ops.sin (p.x * 5 + p.y * 5 + time * 2) * 0.5 + 0.5) 6
  let color_ocean : Vec3 := ⟨0, 0.25, 0.8⟩
  let color_land : Vec3 := ⟨0.1, 0.6, 0.2⟩
  let color_clouds : Vec3 := ⟨1, 1, 1⟩
  let mix_earth := color_ocean * (1 - land : ℚ) + color_land * land
  let final_color := mix_earth * (1 - clouds * 0.3 : ℚ) + color_clouds * clouds * (0.5 : ℚ)
  ⟨base_color.x * final_color.x, base_color.y * final_color.y, base_color.z * final_color.z⟩

/-- `shaders.rs` `shader_vulcan`: mixing of rock and lava colors with a
time-driven glow, multiplied into the base color.  (In `shader_terra` the
`ocean` local is computed and never read, exactly as in the source.) -/
def shader_vulcan (ops : FOps) (fragment : Fragment) (time : ℚ) : Vec3 :=
  let p := fragment.world_position
  let base_color := fragment.color
  let crack_pattern := |ops.sin (p.x * 8) * ops.cos (p.y * 8) * ops.sin (p.z * 6)|
  let heat_wave := ops.powf (ops.sin (p.x * 3 + p.y * 2 + time * 5) * 0.5 + 0.5) 8
  let rock_color : Vec3 := ⟨0.3, 0.2, 0.15⟩
  let lava_color : Vec3 := ⟨1, 0.4, 0.05⟩
  let lava_mix := ops.powf crack_pattern 3 * heat_wave
  let color := rock_color * (1 - lava_mix : ℚ) + lava_color * lava_mix
  let glow := ops.sin (time * 10) * 0.1 + 0.9
  color * glow * base_color

/-- `shaders.rs` `shader_solarius`. -/
def shader_solarius (ops : FOps) (fragment : Fragment) (time : ℚ) : Vec3 :=
  let p := fragment.world_position
  let base_color := fragment.color
  let plasma := |ops.sin (p.x * 4 + time * 3) + ops.cos (p.y * 5 - time * 2)|
  let turbulence := ops.powf (ops.sin (p.z * 6 + time * 4) * 0.5 + 0.5) 3
  let sunspots := ops.powf (plasma * turbulence) 2
  let spot_factor := max (1 - sunspots * 0.5) 0
  let color_core : Vec3 := ⟨1, 0.9, 0.3⟩
  let color_flame : Vec3 := ⟨1, 0.5, 0⟩
  let color_outer : Vec3 := ⟨1, 0.15, 0⟩
  let mix1 := color_core * plasma + color_flame * (1 - plasma : ℚ)
  let mix2 := mix1 * spot_factor + color_outer * (1 - spot_factor : ℚ)
  let pulse := ops.sin (time * 3) * 0.25 + 0.9
  let emission_intensity : ℚ := 2.5
  let color_emission := mix2 * emission_intensity * pulse
  base_color * (0.3 : ℚ) + color_emission

/-- `shaders.rs` `shader_nepturion`, including the radial ring band active
only for `1.2 < r < 2.5` around the y axis. -/
def shader_nepturion (ops : FOps) (fragment : Fragment) (time : ℚ) : Vec3 :=
  let p := fragment.world_position
  let base_color := fragment.color
  let band := ops.powf (ops.sin (p.y * 4 + time * 0.8) * 0.5 + 0.5) 2
  let turbulence := ops.powf (ops.cos (p.x * 6 + p.z * 4 + time * 2) * 0.5 + 0.5) 3
  let band_color1 : Vec3 := ⟨0.05, 0.2, 0.7⟩
  let band_color2 : Vec3 := ⟨0.2, 0.4, 0.9⟩
  let highlight : Vec3 := ⟨0.5, 0.8, 1⟩
  let gas_mix := band_color1 * band + band_color2 * (1 - band : ℚ)
  let final_color := gas_mix * (1 - turbulence * 0.3 : ℚ) + highlight * turbulence * (0.4 : ℚ)
  let glow := (ops.sin (p.y + time * 0.2) * 0.5 + 0.5) * 0.2 + 0.8
  let color := final_color * glow * base_color
  let r := ops.sqrt (p.x * p.x + 0 * 0 + p.z * p.z)
  let ring_inner : ℚ := 1.2
  let ring_outer : ℚ := 2.5
  if r > ring_inner ∧ r < ring_outer then
    let rotation := ops.sin (time * 0.5) * 0.3
    let ring_pattern := ops.powf (ops.sin (r * 30 + rotation) * 0.5 + 0.5) 6
    let ring_color : Vec3 := (⟨0.7, 0.9, 1⟩ : Vec3) * (1.5 : ℚ)
    let fade := clampQ (1 - ops.powf ((r - ring_inner) / (ring_outer - ring_inner)) 1.5) 0 1
    let tilt := max |p.y * 2| 0.1
    let transparency := clampQ (1 - tilt) 0 1 * 0.6
    let ring_contrib := ring_color * ring_pattern * fade * transparency
    color + ring_contrib
  else color

/-- `shaders.rs` `shader_mossar`. -/
def shader_mossar (ops : FOps) (fragment : Fragment) (time : ℚ) : Vec3 :=
  let p := fragment.world_position
  let base_color := fragment.color
  let moss := ops.powf (ops.cos (p.x * 3 + p.y * 2.5) * ops.sin (p.z * 3.5) * 0.5 + 0.5) 2.5
  let bio_glow := ops.powf (ops.sin (p.x + p.y + time * 1.5) * 0.5 + 0.5) 10
  let color_moss : Vec3 := ⟨0.1, 0.6, 0.2⟩
  let color_dark : Vec3 := ⟨0.05, 0.25, 0.05⟩
  let color_glow : Vec3 := ⟨0.4, 1, 0.6⟩
  let blend := color_moss * moss + color_dark * (1 - moss : ℚ)
  let final_color := blend * (1 - bio_glow * 0.3 : ℚ) + color_glow * bio_glow * (0.5 : ℚ)
  final_color * base_color

/-- `shaders.rs` `fragment_shader`: reads the time from the uniforms and
dispatches on the material tag over the closed shader set. -/
def fragment_shader (ops : FOps) (fragment : Fragment) (uniforms : Uniforms)
    (planet_type : PlanetShaderType) : Vec3 :=
  let time := uniforms.time
  match planet_type with
  | PlanetShaderType.Terra => shader_terra ops fragment time
  | PlanetShaderType.Vulcan => shader_vulcan ops fragment time
  | PlanetShaderType.Solarius => shader_solarius ops fragment time
  | PlanetShaderType.Nepturion => shader_nepturion ops fragment time
  | PlanetShaderType.Mossar => shader_mossar ops fragment time

/-- `main.rs` lines 415-424: group a flat vertex stream into consecutive
triples, dropping any trailing one or two leftover vertices. -/
def triples {α : Type} : List α → List (α × α × α)
  | a :: b :: c :: rest => (a, b, c) :: triples rest
  | _ => []

/-- `main.rs` lines 428-430: the average transformed depth of a triangle. -/
def avgZ (t : Vertex × Vertex × Vertex) : ℚ :=
  (t.1.transformed_position.z + t.2.1.transformed_position.z
    + t.2.2.transformed_position.z) / 3

/-- `main.rs` lines 402-413: truncate the vertex stream at the vertex
budget of 1500 and run the vertex shader over the prefix. -/
def transformStage (u : Uniforms) (vertex_array : List Vertex) : List Vertex :=
  (vertex_array.take 1500).map (fun v => vertex_shader v u)

/-- `main.rs` lines 426-435: keep exactly the triangles whose average
transformed depth lies strictly between -2000 and 2000. -/
def visibleStage (tris : List (Vertex × Vertex × Vertex)) :
    List (Vertex × Vertex × Vertex) :=
  tris.filter (fun t => decide (-2000 < avgZ t ∧ avgZ t < 2000))

/-- `main.rs` lines 440-457: accumulate per-triangle fragment lists under
the global fragment budget; a triangle that would overflow the budget is
truncated at the ceiling and ends the loop; once the ceiling is reached no
further triangle is rasterized. -/
def collectFragments (maxF : ℕ) : List (List Fragment) → List Fragment → List Fragment
  | [], acc => acc
  | t :: ts, acc =>
    if maxF ≤ acc.length then acc
    else if t.length ≤ maxF - acc.length then collectFragments maxF ts (acc ++ t)
    else acc ++ t.take (maxF - acc.length)

/-- `main.rs` lines 437-457: rasterize at most 500 visible triangles under
the fragment budget of 15000. -/
def rasterStage (sq : ℚ → ℚ) (light : Light)
    (visible_triangles : List (Vertex × Vertex × Vertex)) : List Fragment :=
  collectFragments 15000
    ((visible_triangles.take 500).map (fun t => triangle sq t.1 t.2.1 t.2.2 light)) []

/-- `main.rs` `render`, fragment-producing part: vertex budget and
transform, triple assembly, depth-window cull, triangle budget, and
rasterization under the fragment budget. -/
def renderFragments (sq : ℚ → ℚ) (u : Uniforms) (vertex_array : List Vertex)
    (light : Light) : List Fragment :=
  rasterStage sq light (visibleStage (triples (transformStage u vertex_array)))

/-- Rust `f32 as usize`: truncation toward zero with saturation (negative
values and NaN become 0; huge values become `usize::MAX`). -/
def f32ToUsize (q : ℚ) : ℕ :=
  min (Int.toNat ⌊q⌋) (2 ^ 64 - 1)

/-- `main.rs` lines 463-477, the framebuffer write gate of one fragment:
the written pixel (as `usize` coordinates), or `none` when the coordinates
fail the bounds check against the framebuffer dimensions. -/
def fragWritePixel (width height : ℕ) (f : Fragment) : Option (ℕ × ℕ) :=
  let x := f32ToUsize f.position.x
  let y := f32ToUsize f.position.y
  if x < width ∧ y < height then some (x, y) else none

/-! ## Concrete inputs used by witnesses and counterexamples -/

/-- A concrete model of `f32::sqrt` usable in closed evaluations; the
claims proved below hold for every choice of this function. -/
def sqZero : ℚ → ℚ := fun _ => 0

/-- Build a vertex from a local position and a screen position; the other
attributes are fixed. -/
def mkVert (px py pz tx ty : ℚ) : Vertex :=
  { position := ⟨px, py, pz⟩, normal := ⟨0, 0, 1⟩, tex_coords := ⟨0, 0⟩,
    color := ⟨1, 1, 1⟩, transformed_position := ⟨tx, ty, 0⟩,
    transformed_normal := ⟨0, 0, 1⟩ }

/-- Screen triangle (0,0), (4,0), (0,4) from the testable-properties
section. -/
def vertA : Vertex := mkVert 0 0 0 0 0

/-- Second vertex of the concrete test triangle. -/
def vertB : Vertex := mkVert 4 0 0 4 0

/-- Third vertex of the concrete test triangle. -/
def vertC : Vertex := mkVert 0 4 0 0 4

/-- A triangle with pairwise-distinct screen y coordinates. -/
def vertP : Vertex := mkVert 0 0 0 0 0

/-- Second vertex of the distinct-y triangle. -/
def vertQ : Vertex := mkVert 10 1 0 10 1

/-- Third vertex of the distinct-y triangle. -/
def vertR : Vertex := mkVert 0 2 0 0 2

/-- A vertex completing a clockwise (culled) triangle with `vertP` and
`vertR`: both input orders sort to the same y-ascending triple. -/
def vertS : Vertex := mkVert 0 0 0 (-10) 1

/-- A light at the origin. -/
def lightW : Light := ⟨⟨0, 0, 0⟩⟩

/-- `vertA` pushed through `vertex_shader` with the translated model
matrix: screen position (5, 0), local position unchanged. -/
def vertA5 : Vertex := mkVert 0 0 0 5 0

/-- `vertB` pushed through `vertex_shader` with the translated model
matrix: screen position (9, 0), local position unchanged. -/
def vertB5 : Vertex := mkVert 4 0 0 9 0

/-- `vertC` pushed through `vertex_shader` with the translated model
matrix: screen position (5, 4), local position unchanged. -/
def vertC5 : Vertex := mkVert 0 4 0 5 4

/-- The fragment emitted at pixel center (5.5, 0.5) for the translated
triangle (`vertA5`, `vertB5`, `vertC5`) under `sqZero`: its stored world
position interpolates the local positions of the vertices. -/
def fragCE : Fragment :=
  { position := ⟨11/2, 1/2⟩, color := ⟨0, 0, 0⟩, depth := 0,
    world_position := ⟨1/2, 1/2, 0⟩ }

/-- The first fragment emitted for the test triangle
(`vertA`, `vertB`, `vertC`) under `sqZero`: pixel center (0.5, 0.5). -/
def fragW : Fragment :=
  { position := ⟨1/2, 1/2⟩, color := ⟨0, 0, 0⟩, depth := 0,
    world_position := ⟨1/2, 1/2, 0⟩ }

/-- A fragment whose screen x is negative (used against claim C8). -/
def fragNeg : Fragment :=
  { position := ⟨-7/2, 5/2⟩, color := ⟨0, 0, 0⟩, depth := 0,
    world_position := ⟨0, 0, 0⟩ }

/-- A fragment with in-bounds screen coordinates. -/
def fragIn : Fragment :=
  { position := ⟨7/2, 5/2⟩, color := ⟨0, 0, 0⟩, depth := 0,
    world_position := ⟨0, 0, 0⟩ }

/-- Identity matrix in glm column-major slice order. -/
def glmId : GlmMat4 := ⟨1, 0, 0, 0, 0, 1, 0, 0, 0, 0, 1, 0, 0, 0, 0, 1⟩

/-- Translation by (5, 0, 0) in glm column-major slice order (the
translation column occupies entries 12-15). -/
def glmTrans5 : GlmMat4 := ⟨1, 0, 0, 0, 0, 1, 0, 0, 0, 0, 1, 0, 5, 0, 0, 1⟩

/-- Identity transform bundle at time 3. -/
def uniId3 : Uniforms := ⟨glmId, glmId, glmId, glmId, 3⟩

/-- Transform bundle whose model matrix translates by (5, 0, 0), identity
otherwise, at time 3. -/
def uniTrans3 : Uniforms := ⟨glmTrans5, glmId, glmId, glmId, 3⟩

/-- Shader ops with every library function constantly zero (any fixed
functions work; the claims are independent of their values). -/
def opsW : FOps := ⟨fun _ => 0, fun _ => 0, fun _ => 0, fun _ _ => 0⟩

/-- A fragment with world position (2,3,4) and white base color. -/
def fragD1 : Fragment := ⟨⟨1, 2⟩, ⟨1, 1, 1⟩, 7, ⟨2, 3, 4⟩⟩

/-- Same world position and base color as `fragD1` but different screen
position and depth. -/
def fragD2 : Fragment := ⟨⟨9, 9⟩, ⟨1, 1, 1⟩, 0, ⟨2, 3, 4⟩⟩

/-! ## Helper lemmas -/

theorem triples_length_aux {α : Type} :
    ∀ (n : ℕ) (l : List α), l.length ≤ n → (triples l).length = l.length / 3 := by
  intro n
  induction n with
  | zero =>
    intro l h
    cases l with
    | nil => simp [triples]
    | cons a t => simp at h
  | succ n ih =>
    intro l h
    match l with
    | [] => simp [triples]
    | [a] => simp [triples]
    | [a, b] => simp [triples]
    | a :: b :: c :: rest =>
      have hr : rest.length ≤ n := by simp at h; omega
      have h2 := ih rest hr
      simp [triples, h2]
      omega

theorem triples_get_aux {α : Type} :
    ∀ (i : ℕ) (l : List α),
      (triples l).get? i =
        (match l.get? (3 * i), l.get? (3 * i + 1), l.get? (3 * i + 2) with
         | some a, some b, some c => some (a, b, c)
         | _, _, _ => none) := by
  intro i
  induction i with
  | zero =>
    intro l
    match l with
    | [] => simp [triples]
    | [a] => simp [triples]
    | [a, b] => simp [triples]
    | a :: b :: c :: rest => simp [triples]
  | succ i ih =>
    intro l
    match l with
    | [] => simp [triples]
    | [a] => simp [triples]
    | [a, b] => simp [triples]
    | a :: b :: c :: rest =>
      have e0 : 3 * (i + 1) = 3 * i + 1 + 1 + 1 := by ring
      rw [e0]
      have e2 : 3 * i + 1 + 1 + 1 + 2 = 3 * i + 2 + 1 + 1 + 1 := by ring
      rw [e2]
      simp only [triples, List.get?_cons_succ]
      exact ih rest

theorem collectFragments_length (maxF : ℕ) :
    ∀ (ls : List (List Fragment)) (acc : List Fragment), acc.length ≤ maxF →
      (collectFragments maxF ls acc).length
        = min (acc.length + (ls.map List.length).sum) maxF := by
  intro ls
  induction ls with
  | nil =>
    intro acc h
    simp [collectFragments]
    omega
  | cons t ts ih =>
    intro acc h
    simp only [collectFragments]
    split
    · next hge =>
      simp only [List.map_cons, List.sum_cons]
      omega
    · next hlt =>
      split
      · next hle =>
        rw [ih (acc ++ t) (by simp; omega)]
        simp only [List.length_append, List.map_cons, List.sum_cons]
        omega
      · next hgt =>
        simp only [List.length_append, List.length_take, List.map_cons, List.sum_cons]
        omega

theorem barycentric_some {p_x p_y : ℚ} {a b c : Vertex} {w1 w2 w3 : ℚ}
    (h : barycentric_coordinates p_x p_y a b c = some (w1, w2, w3)) :
    w1 + w2 + w3 = 1 ∧ 0 ≤ w1 ∧ w1 ≤ 1 ∧ 0 ≤ w2 ∧ w2 ≤ 1 ∧ 0 ≤ w3 ∧ w3 ≤ 1 ∧
      1 / 10000000000 ≤ |baryDenom a b c| := by
  simp only [barycentric_coordinates] at h
  split_ifs at h with h1 h2 h3 h4
  rw [Option.some.injEq, Prod.mk.injEq, Prod.mk.injEq] at h
  obtain ⟨e1, e2, e3⟩ := h
  subst e1
  subst e2
  subst e3
  push_neg at h1 h2 h3 h4
  refine ⟨by ring, h2.1, h2.2, h3.1, h3.2, h4, by linarith [h2.1, h3.1], ?_⟩
  exact h1

theorem pixelFrag_some {sq : ℚ → ℚ} {v1 v2 v3 : Vertex} {light : Light}
    {p_x y_f : ℚ} {frag : Fragment}
    (h : pixelFrag sq v1 v2 v3 light p_x y_f = some frag) :
    ∃ w1 w2 w3, barycentric_coordinates p_x y_f v1 v2 v3 = some (w1, w2, w3) ∧
      frag = { position := ⟨p_x, y_f⟩,
               color :=
                 ⟨(1/2) * max (dot3
                     (normalizeOrKeep sq (interpVec3 w1 w2 w3 v1.normal v2.normal v3.normal))
                     (normalize3 sq
                       ⟨light.position.x - (interpVec3 w1 w2 w3 v1.position v2.position v3.position).x,
                        light.position.y - (interpVec3 w1 w2 w3 v1.position v2.position v3.position).y,
                        light.position.z - (interpVec3 w1 w2 w3 v1.position v2.position v3.position).z⟩)) 0,
                  (1/2) * max (dot3
                     (normalizeOrKeep sq (interpVec3 w1 w2 w3 v1.normal v2.normal v3.normal))
                     (normalize3 sq
                       ⟨light.position.x - (interpVec3 w1 w2 w3 v1.position v2.position v3.position).x,
                        light.position.y - (interpVec3 w1 w2 w3 v1.position v2.position v3.position).y,
                        light.position.z - (interpVec3 w1 w2 w3 v1.position v2.position v3.position).z⟩)) 0,
                  (1/2) * max (dot3
                     (normalizeOrKeep sq (interpVec3 w1 w2 w3 v1.normal v2.normal v3.normal))
                     (normalize3 sq
                       ⟨light.position.x - (interpVec3 w1 w2 w3 v1.position v2.position v3.position).x,
                        light.position.y - (interpVec3 w1 w2 w3 v1.position v2.position v3.position).y,
                        light.position.z - (interpVec3 w1 w2 w3 v1.position v2.position v3.position).z⟩)) 0⟩,
               depth := w1 * v1.transformed_position.z + w2 * v2.transformed_position.z
                 + w3 * v3.transformed_position.z,
               world_position := interpVec3 w1 w2 w3 v1.position v2.position v3.position } := by
  unfold pixelFrag at h
  cases hb : barycentric_coordinates p_x y_f v1 v2 v3 with
  | none => rw [hb] at h; exact absurd h (by simp)
  | some w =>
    obtain ⟨w1, w2, w3⟩ := w
    rw [hb] at h
    simp only [Option.some.injEq] at h
    exact ⟨w1, w2, w3, rfl, h.symm⟩

theorem mem_triangle_inv {sq : ℚ → ℚ} {v1 v2 v3 : Vertex} {light : Light}
    {frag : Fragment} (hmem : frag ∈ triangle sq v1 v2 v3 light) :
    ∃ (x y : ℤ),
      pixelFrag sq v1 v2 v3 light ((x : ℚ) + 1/2) ((y : ℚ) + 1/2) = some frag := by
  unfold triangle at hmem
  by_cases hc : cullCross v1 v2 v3 ≤ 0
  · rw [if_pos hc] at hmem
    exact absurd hmem (List.not_mem_nil _)
  · rw [if_neg hc] at hmem
    obtain ⟨y, hy, hscan⟩ := List.mem_flatMap.mp hmem
    unfold scanlineFrags at hscan
    rcases hxs : edgeIntersections ((y : ℚ) + 1/2)
        [((sort3 v1 v2 v3).1, (sort3 v1 v2 v3).2.1),
         ((sort3 v1 v2 v3).2.1, (sort3 v1 v2 v3).2.2),
         ((sort3 v1 v2 v3).2.2, (sort3 v1 v2 v3).1)] with _ | ⟨x0, xs⟩
    · rw [hxs] at hscan
      exact absurd hscan (List.not_mem_nil _)
    · cases xs with
      | nil =>
        rw [hxs] at hscan
        exact absurd hscan (List.not_mem_nil _)
      | cons x1 rest =>
        rw [hxs] at hscan
        obtain ⟨x, hx, hpf⟩ := List.mem_filterMap.mp hscan
        exact ⟨x, y, hpf⟩

theorem fragW_mem : fragW ∈ triangle sqZero vertA vertB vertC lightW := by
  have hs : sort3 vertA vertB vertC = (vertA, vertB, vertC) := by
    norm_num [sort3, vertA, vertB, vertC, mkVert]
  have hcull : ¬ cullCross vertA vertB vertC ≤ 0 := by
    norm_num [cullCross, sort3, vertA, vertB, vertC, mkVert]
  have hbary : barycentric_coordinates ((0 : ℤ) + 1/2 : ℚ) ((0 : ℤ) + 1/2 : ℚ)
      vertA vertB vertC = some (3/4, 1/8, 1/8) := by
    norm_num [barycentric_coordinates, vertA, vertB, vertC, mkVert]
  have hpx : pixelFrag sqZero vertA vertB vertC lightW
      (((0 : ℤ) : ℚ) + 1/2) (((0 : ℤ) : ℚ) + 1/2) = some fragW := by
    unfold pixelFrag
    rw [hbary]
    simp only [fragW, normalizeOrKeep, normalize3, interpVec3, dot3, sqZero,
      vertA, vertB, vertC, mkVert, lightW]
    norm_num
  have hes : edgeIntersections (((0 : ℤ) : ℚ) + 1/2)
      [(vertA, vertB), (vertB, vertC), (vertC, vertA)] = [7/2, 0] := by
    simp only [edgeIntersections, List.filterMap_cons, vertA, vertB, vertC, mkVert]
    norm_num
  unfold triangle
  rw [if_neg hcull, hs]
  apply List.mem_flatMap.mpr
  refine ⟨0, ?_, ?_⟩
  · have hf : ⌊vertA.transformed_position.y⌋ = 0 := by norm_num [vertA, mkVert]
    have hc : ⌈vertC.transformed_position.y⌉ = 4 := by
      norm_num [vertC, mkVert, Int.ceil_eq_iff]
    rw [hf, hc]
    decide
  · unfold scanlineFrags
    rw [hes]
    have hmin : ⌊min (7/2 : ℚ) 0⌋ = 0 := by norm_num
    have hmax : ⌈max (7/2 : ℚ) 0⌉ = 4 := by norm_num [Int.ceil_eq_iff]
    show fragW ∈ (intRange ⌊min (7/2 : ℚ) 0⌋ ⌈max (7/2 : ℚ) 0⌉).filterMap
      (fun (x : ℤ) => pixelFrag sqZero vertA vertB vertC lightW
        ((x : ℚ) + 1/2) (((0 : ℤ) : ℚ) + 1/2))
    rw [hmin, hmax]
    apply List.mem_filterMap.mpr
    exact ⟨0, by decide, hpx⟩

theorem fragCE_mem : fragCE ∈ triangle sqZero vertA5 vertB5 vertC5 lightW := by
  have hs : sort3 vertA5 vertB5 vertC5 = (vertA5, vertB5, vertC5) := by
    norm_num [sort3, vertA5, vertB5, vertC5, mkVert]
  have hcull : ¬ cullCross vertA5 vertB5 vertC5 ≤ 0 := by
    norm_num [cullCross, sort3, vertA5, vertB5, vertC5, mkVert]
  have hbary : barycentric_coordinates ((5 : ℤ) + 1/2 : ℚ) ((0 : ℤ) + 1/2 : ℚ)
      vertA5 vertB5 vertC5 = some (3/4, 1/8, 1/8) := by
    norm_num [barycentric_coordinates, vertA5, vertB5, vertC5, mkVert]
  have hpx : pixelFrag sqZero vertA5 vertB5 vertC5 lightW
      (((5 : ℤ) : ℚ) + 1/2) (((0 : ℤ) : ℚ) + 1/2) = some fragCE := by
    unfold pixelFrag
    rw [hbary]
    simp only [fragCE, normalizeOrKeep, normalize3, interpVec3, dot3, sqZero,
      vertA5, vertB5, vertC5, mkVert, lightW]
    norm_num
  have hes : edgeIntersections (((0 : ℤ) : ℚ) + 1/2)
      [(vertA5, vertB5), (vertB5, vertC5), (vertC5, vertA5)] = [17/2, 5] := by
    simp only [edgeIntersections, List.filterMap_cons, vertA5, vertB5, vertC5, mkVert]
    norm_num
  unfold triangle
  rw [if_neg hcull, hs]
  apply List.mem_flatMap.mpr
  refine ⟨0, ?_, ?_⟩
  · have hf : ⌊vertA5.transformed_position.y⌋ = 0 := by norm_num [vertA5, mkVert]
    have hc : ⌈vertC5.transformed_position.y⌉ = 4 := by
      norm_num [vertC5, mkVert, Int.ceil_eq_iff]
    rw [hf, hc]
    decide
  · unfold scanlineFrags
    rw [hes]
    have hmin : ⌊min (17/2 : ℚ) 5⌋ = 5 := by norm_num
    have hmax : ⌈max (17/2 : ℚ) 5⌉ = 9 := by norm_num [Int.ceil_eq_iff]
    show fragCE ∈ (intRange ⌊min (17/2 : ℚ) 5⌋ ⌈max (17/2 : ℚ) 5⌉).filterMap
      (fun (x : ℤ) => pixelFrag sqZero vertA5 vertB5 vertC5 lightW
        ((x : ℚ) + 1/2) (((0 : ℤ) : ℚ) + 1/2))
    rw [hmin, hmax]
    apply List.mem_filterMap.mpr
    exact ⟨5, by decide, hpx⟩

theorem sort3_perm_eq {v1 v2 v3 : Vertex}
    (h12 : v1.transformed_position.y ≠ v2.transformed_position.y)
    (h13 : v1.transformed_position.y ≠ v3.transformed_position.y)
    (h23 : v2.transformed_position.y ≠ v3.transformed_position.y) :
    sort3 v2 v1 v3 = sort3 v1 v2 v3 ∧ sort3 v1 v3 v2 = sort3 v1 v2 v3 ∧
      sort3 v3 v2 v1 = sort3 v1 v2 v3 := by
  rcases h12.lt_or_lt with a | a <;> rcases h13.lt_or_lt with b | b <;>
    rcases h23.lt_or_lt with c | c <;>
    refine ⟨?_, ?_, ?_⟩ <;>
    · unfold sort3
      split_ifs <;> first | rfl | linarith

theorem mulVec_glm_eq (M : GlmMat4) (v : Vec4) :
    multiply_matrix_vector4 (glm_to_raylib M) v = specMatVec M v := rfl

theorem perspectiveDivide_eq (c : Vec4) :
    perspectiveDivideSrc c = perspectiveDivideSpec c := by
  by_cases h : c.w = 0 <;> simp [perspectiveDivideSrc, perspectiveDivideSpec, h]

/-! ## Claim theorems -/

/-- C1: every fragment emitted by the scanline rasterizer `triangle` was
accepted by `barycentric_coordinates` at its pixel center; the three
weights sum to 1, each lies in [0, 1], and the barycentric denominator has
absolute value at least 1e-10 — pixels violating any of these conditions
are never emitted. -/
theorem bary_weights_valid : ∀ (sq : ℚ → ℚ) (v1 v2 v3 : Vertex) (light : Light)
    (frag : Fragment), frag ∈ triangle sq v1 v2 v3 light →
    ∃ w1 w2 w3,
      barycentric_coordinates frag.position.x frag.position.y v1 v2 v3
        = some (w1, w2, w3) ∧
      w1 + w2 + w3 = 1 ∧ 0 ≤ w1 ∧ w1 ≤ 1 ∧ 0 ≤ w2 ∧ w2 ≤ 1 ∧ 0 ≤ w3 ∧ w3 ≤ 1 ∧
      1 / 10000000000 ≤ |baryDenom v1 v2 v3| := by
  intro sq v1 v2 v3 light frag hmem
  obtain ⟨x, y, hpf⟩ := mem_triangle_inv hmem
  obtain ⟨w1, w2, w3, hb, hfrag⟩ := pixelFrag_some hpf
  subst hfrag
  exact ⟨w1, w2, w3, hb, barycentric_some hb⟩

/-- Witness for C1: the test triangle (0,0), (4,0), (0,4) emits the
fragment at pixel center (0.5, 0.5) and the theorem certifies its
weights. -/
theorem bary_weights_valid_witness :
    (fragW ∈ triangle sqZero vertA vertB vertC lightW) ∧
    (∃ w1 w2 w3,
      barycentric_coordinates fragW.position.x fragW.position.y vertA vertB vertC
        = some (w1, w2, w3) ∧
      w1 + w2 + w3 = 1 ∧ 0 ≤ w1 ∧ w1 ≤ 1 ∧ 0 ≤ w2 ∧ w2 ≤ 1 ∧ 0 ≤ w3 ∧ w3 ≤ 1 ∧
      1 / 10000000000 ≤ |baryDenom vertA vertB vertC|) :=
  ⟨fragW_mem, bary_weights_valid sqZero vertA vertB vertC lightW fragW fragW_mem⟩

/-- Counterexample to C2: a vertex triple with pairwise-distinct screen y
for which swapping the first two inputs neither flips the sign of the
cull cross product (it stays -20) nor toggles the cull/accept decision
(both orders are culled with an empty fragment set), because the cross
product is computed on the y-sorted triple, not on the input winding. -/
theorem winding_swap_not_toggling :
    cullCross vertP vertS vertR = -20 ∧
    cullCross vertS vertP vertR = -20 ∧
    ((-20 : ℚ) ≠ -(-20 : ℚ)) ∧
    triangle sqZero vertP vertS vertR lightW = [] ∧
    triangle sqZero vertS vertP vertR lightW = [] := by
  have e1 : cullCross vertP vertS vertR = -20 := by
    norm_num [cullCross, sort3, vertP, vertS, vertR, mkVert]
  have e2 : cullCross vertS vertP vertR = -20 := by
    norm_num [cullCross, sort3, vertP, vertS, vertR, mkVert]
  refine ⟨e1, e2, by norm_num, ?_, ?_⟩
  · unfold triangle
    rw [if_pos (by rw [e1]; norm_num)]
  · unfold triangle
    rw [if_pos (by rw [e2]; norm_num)]

/-- C2 (amended): the cull/accept decision is a function of the y-sorted
vertex triple, not of the input winding — when the three screen y values
are pairwise distinct, swapping any two input vertices leaves the cull
cross product (hence the decision) unchanged, and a triangle whose sorted
cross product is ≤ 0 is culled with an empty fragment set. -/
theorem cull_decision_y_sorted : ∀ (v1 v2 v3 : Vertex),
    v1.transformed_position.y ≠ v2.transformed_position.y →
    v1.transformed_position.y ≠ v3.transformed_position.y →
    v2.transformed_position.y ≠ v3.transformed_position.y →
    cullCross v2 v1 v3 = cullCross v1 v2 v3 ∧
    cullCross v1 v3 v2 = cullCross v1 v2 v3 ∧
    cullCross v3 v2 v1 = cullCross v1 v2 v3 ∧
    (∀ (sq : ℚ → ℚ) (light : Light),
      cullCross v1 v2 v3 ≤ 0 → triangle sq v1 v2 v3 light = []) := by
  intro v1 v2 v3 h12 h13 h23
  obtain ⟨e1, e2, e3⟩ := sort3_perm_eq h12 h13 h23
  refine ⟨?_, ?_, ?_, ?_⟩
  · unfold cullCross
    rw [e1]
  · unfold cullCross
    rw [e2]
  · unfold cullCross
    rw [e3]
  · intro sq light hle
    unfold triangle
    rw [if_pos hle]

/-- Witness for the amended C2: the distinct-y triple (0,0), (10,1), (0,2)
satisfies the hypotheses and swapping its first two vertices leaves the
cross product unchanged. -/
theorem cull_decision_y_sorted_witness :
    (vertP.transformed_position.y ≠ vertQ.transformed_position.y ∧
     vertP.transformed_position.y ≠ vertR.transformed_position.y ∧
     vertQ.transformed_position.y ≠ vertR.transformed_position.y) ∧
    cullCross vertQ vertP vertR = cullCross vertP vertQ vertR := by
  have h12 : vertP.transformed_position.y ≠ vertQ.transformed_position.y := by
    norm_num [vertP, vertQ, mkVert]
  have h13 : vertP.transformed_position.y ≠ vertR.transformed_position.y := by
    norm_num [vertP, vertR, mkVert]
  have h23 : vertQ.transformed_position.y ≠ vertR.transformed_position.y := by
    norm_num [vertQ, vertR, mkVert]
  exact ⟨⟨h12, h13, h23⟩,
    (cull_decision_y_sorted vertP vertQ vertR h12 h13 h23).1⟩

/-- Counterexample to C3: with a model matrix translating by (5, 0, 0),
the triangle of vertex-shader outputs emits the fragment at pixel center
(5.5, 0.5) with weights (3/4, 1/8, 1/8); its stored world position
(1/2, 1/2, 0) interpolates the local positions of the vertices and differs from
the interpolation of their model-transformed positions (11/2, 1/2, 0). -/
theorem world_pos_not_model_transformed :
    vertex_shader vertA uniTrans3 = vertA5 ∧
    vertex_shader vertB uniTrans3 = vertB5 ∧
    vertex_shader vertC uniTrans3 = vertC5 ∧
    fragCE ∈ triangle sqZero vertA5 vertB5 vertC5 lightW ∧
    barycentric_coordinates fragCE.position.x fragCE.position.y vertA5 vertB5 vertC5
      = some (3/4, 1/8, 1/8) ∧
    interpVec3 (3/4) (1/8) (1/8) (worldPositionOf vertA5 uniTrans3)
      (worldPositionOf vertB5 uniTrans3) (worldPositionOf vertC5 uniTrans3)
      = ⟨11/2, 1/2, 0⟩ ∧
    fragCE.world_position = ⟨1/2, 1/2, 0⟩ ∧
    ((⟨1/2, 1/2, 0⟩ : Vec3) ≠ ⟨11/2, 1/2, 0⟩) := by
  refine ⟨?_, ?_, ?_, fragCE_mem, ?_, ?_, by norm_num [fragCE], by norm_num⟩
  · norm_num [vertex_shader, perspectiveDivideSrc, glm_to_raylib,
      multiply_matrix_vector4, uniTrans3, glmTrans5, glmId, vertA, vertA5, mkVert]
  · norm_num [vertex_shader, perspectiveDivideSrc, glm_to_raylib,
      multiply_matrix_vector4, uniTrans3, glmTrans5, glmId, vertB, vertB5, mkVert]
  · norm_num [vertex_shader, perspectiveDivideSrc, glm_to_raylib,
      multiply_matrix_vector4, uniTrans3, glmTrans5, glmId, vertC, vertC5, mkVert]
  · norm_num [barycentric_coordinates, fragCE, vertA5, vertB5, vertC5, mkVert]
  · norm_num [interpVec3, worldPositionOf, glm_to_raylib,
      multiply_matrix_vector4, uniTrans3, glmTrans5, vertA5, vertB5, vertC5, mkVert]

/-- C3 (amended): the stored world position of every emitted fragment is the
barycentric interpolation of the stored position
attributes of the three vertices (their local positions, which the vertex shader passes through
unchanged), and the light direction used for the diffuse term is
(light position − that stored world position) normalized, a zero-length
difference yielding the zero vector. -/
theorem world_pos_interp : ∀ (sq : ℚ → ℚ) (v1 v2 v3 : Vertex) (light : Light)
    (frag : Fragment), sq 0 = 0 → frag ∈ triangle sq v1 v2 v3 light →
    ∃ w1 w2 w3,
      barycentric_coordinates frag.position.x frag.position.y v1 v2 v3
        = some (w1, w2, w3) ∧
      frag.world_position = interpVec3 w1 w2 w3 v1.position v2.position v3.position ∧
      frag.color =
        ⟨(1/2) * max (dot3
            (normalizeOrKeep sq (interpVec3 w1 w2 w3 v1.normal v2.normal v3.normal))
            (normalize3 sq
              ⟨light.position.x - frag.world_position.x,
               light.position.y - frag.world_position.y,
               light.position.z - frag.world_position.z⟩)) 0,
         (1/2) * max (dot3
            (normalizeOrKeep sq (interpVec3 w1 w2 w3 v1.normal v2.normal v3.normal))
            (normalize3 sq
              ⟨light.position.x - frag.world_position.x,
               light.position.y - frag.world_position.y,
               light.position.z - frag.world_position.z⟩)) 0,
         (1/2) * max (dot3
            (normalizeOrKeep sq (interpVec3 w1 w2 w3 v1.normal v2.normal v3.normal))
            (normalize3 sq
              ⟨light.position.x - frag.world_position.x,
               light.position.y - frag.world_position.y,
               light.position.z - frag.world_position.z⟩)) 0⟩ ∧
      ((⟨light.position.x - frag.world_position.x,
         light.position.y - frag.world_position.y,
         light.position.z - frag.world_position.z⟩ : Vec3) = ⟨0, 0, 0⟩ →
        normalize3 sq
          ⟨light.position.x - frag.world_position.x,
           light.position.y - frag.world_position.y,
           light.position.z - frag.world_position.z⟩ = ⟨0, 0, 0⟩) := by
  intro sq v1 v2 v3 light frag hs0 hmem
  obtain ⟨x, y, hpf⟩ := mem_triangle_inv hmem
  obtain ⟨w1, w2, w3, hb, hfrag⟩ := pixelFrag_some hpf
  subst hfrag
  refine ⟨w1, w2, w3, hb, rfl, rfl, ?_⟩
  intro h0
  rw [h0]
  unfold normalize3
  have hz : (0 : ℚ) * 0 + 0 * 0 + 0 * 0 = 0 := by ring
  rw [hz, hs0]
  simp

/-- Witness for the amended C3: the test-triangle fragment at (0.5, 0.5)
satisfies the amended interpolation and lighting contract under
`sqZero`. -/
theorem world_pos_interp_witness :
    (sqZero 0 = 0) ∧ (fragW ∈ triangle sqZero vertA vertB vertC lightW) ∧
    (∃ w1 w2 w3,
      barycentric_coordinates fragW.position.x fragW.position.y vertA vertB vertC
        = some (w1, w2, w3) ∧
      fragW.world_position
        = interpVec3 w1 w2 w3 vertA.position vertB.position vertC.position ∧
      fragW.color =
        ⟨(1/2) * max (dot3
            (normalizeOrKeep sqZero
              (interpVec3 w1 w2 w3 vertA.normal vertB.normal vertC.normal))
            (normalize3 sqZero
              ⟨lightW.position.x - fragW.world_position.x,
               lightW.position.y - fragW.world_position.y,
               lightW.position.z - fragW.world_position.z⟩)) 0,
         (1/2) * max (dot3
            (normalizeOrKeep sqZero
              (interpVec3 w1 w2 w3 vertA.normal vertB.normal vertC.normal))
            (normalize3 sqZero
              ⟨lightW.position.x - fragW.world_position.x,
               lightW.position.y - fragW.world_position.y,
               lightW.position.z - fragW.world_position.z⟩)) 0,
         (1/2) * max (dot3
            (normalizeOrKeep sqZero
              (interpVec3 w1 w2 w3 vertA.normal vertB.normal vertC.normal))
            (normalize3 sqZero
              ⟨lightW.position.x - fragW.world_position.x,
               lightW.position.y - fragW.world_position.y,
               lightW.position.z - fragW.world_position.z⟩)) 0⟩ ∧
      ((⟨lightW.position.x - fragW.world_position.x,
         lightW.position.y - fragW.world_position.y,
         lightW.position.z - fragW.world_position.z⟩ : Vec3) = ⟨0, 0, 0⟩ →
        normalize3 sqZero
          ⟨lightW.position.x - fragW.world_position.x,
           lightW.position.y - fragW.world_position.y,
           lightW.position.z - fragW.world_position.z⟩ = ⟨0, 0, 0⟩)) :=
  ⟨rfl, fragW_mem,
    world_pos_interp sqZero vertA vertB vertC lightW fragW rfl fragW_mem⟩

/-- C4: for every input vertex and transform bundle, `vertex_shader`
returns a vertex whose transformed position is model, then view, then
projection applied to the homogeneous (w = 1) lift of the local position,
then perspective division (x/w, y/w, z/w) unless w is exactly zero (in
which case the unmodified clip coordinates pass through), then the
viewport transform; the transformed normal equals the input normal
unmodified and all input attributes are preserved unchanged. -/
theorem vertex_shader_matches_spec : ∀ (v : Vertex) (u : Uniforms),
    vertex_shader v u =
      { position := v.position, normal := v.normal,
        tex_coords := v.tex_coords, color := v.color,
        transformed_position := vertexShaderSpecPosition v.position u,
        transformed_normal := v.normal } := by
  intro v u
  simp only [vertex_shader, vertexShaderSpecPosition, mulVec_glm_eq,
    perspectiveDivide_eq]

/-- C5: for every render call, the fragments collected across that call and its
triangles number exactly the minimum of the untruncated per-triangle total
and the global fragment budget 15000 — in particular never more than
15000. -/
theorem render_fragment_budget : ∀ (sq : ℚ → ℚ) (u : Uniforms)
    (vertex_array : List Vertex) (light : Light),
    (renderFragments sq u vertex_array light).length
      = min ((((visibleStage (triples (transformStage u vertex_array))).take 500).map
          (fun t => (triangle sq t.1 t.2.1 t.2.2 light).length)).sum) 15000 ∧
    (renderFragments sq u vertex_array light).length ≤ 15000 := by
  intro sq u va light
  have h := collectFragments_length 15000
    (((visibleStage (triples (transformStage u va))).take 500).map
      (fun t => triangle sq t.1 t.2.1 t.2.2 light)) [] (by simp)
  simp only [List.length_nil, Nat.zero_add, List.map_map] at h
  constructor
  · exact h
  · rw [show renderFragments sq u va light
        = collectFragments 15000
            (((visibleStage (triples (transformStage u va))).take 500).map
              (fun t => triangle sq t.1 t.2.1 t.2.2 light)) [] from rfl, h]
    exact Nat.min_le_right _ _

/-- C6: the depth-window cull keeps a triangle exactly when its average
transformed z lies strictly between -2000 and 2000; every triangle passed
on to the rasterizer (after the 500-triangle budget) satisfies the
window. -/
theorem depth_window_cull : ∀ (tv : List Vertex) (t : Vertex × Vertex × Vertex),
    (t ∈ (visibleStage (triples tv)).take 500 →
      -2000 < avgZ t ∧ avgZ t < 2000) ∧
    (t ∈ triples tv →
      (t ∈ visibleStage (triples tv) ↔ -2000 < avgZ t ∧ avgZ t < 2000)) := by
  intro tv t
  have key : t ∈ visibleStage (triples tv) → -2000 < avgZ t ∧ avgZ t < 2000 := by
    intro h2
    have h3 : t ∈ List.filter
        (fun t => decide (-2000 < avgZ t ∧ avgZ t < 2000)) (triples tv) := h2
    exact of_decide_eq_true (List.mem_filter.mp h3).2
  constructor
  · intro h
    exact key (List.take_subset 500 _ h)
  · intro h
    constructor
    · exact key
    · intro hw
      exact List.mem_filter.mpr ⟨h, decide_eq_true hw⟩

/-- Witness for C6 at a concrete stream: the triple of `vertA` repeated
(average depth 0) survives the cull and lies in the window. -/
theorem depth_window_cull_witness :
    ((vertA, vertA, vertA) ∈ (visibleStage (triples [vertA, vertA, vertA])).take 500) ∧
    (-2000 < avgZ (vertA, vertA, vertA) ∧ avgZ (vertA, vertA, vertA) < 2000) := by
  have e : visibleStage (triples [vertA, vertA, vertA]) = [(vertA, vertA, vertA)] := by
    simp [visibleStage, triples, avgZ, vertA, mkVert]
  have hm : (vertA, vertA, vertA) ∈ (visibleStage (triples [vertA, vertA, vertA])).take 500 := by
    rw [e, List.take_of_length_le (by simp)]
    exact List.mem_singleton.mpr rfl
  exact ⟨hm, (depth_window_cull [vertA, vertA, vertA] (vertA, vertA, vertA)).1 hm⟩

/-- C7: primitive assembly groups exactly consecutive triples — the i-th
candidate triangle is (v(3i), v(3i+1), v(3i+2)) and exists precisely when
all three indices are in range — and the number of triangles is the
stream length divided by 3 (trailing remainder dropped). -/
theorem triples_grouping : ∀ {α : Type} (l : List α) (i : ℕ),
    (triples l).length = l.length / 3 ∧
    (triples l).get? i =
      (match l.get? (3 * i), l.get? (3 * i + 1), l.get? (3 * i + 2) with
       | some a, some b, some c => some (a, b, c)
       | _, _, _ => none) :=
  fun l i => ⟨triples_length_aux l.length l le_rfl, triples_get_aux i l⟩

/-- Counterexample to C8: a fragment with negative screen x is not
discarded — the Rust `as usize` cast saturates the negative coordinate to
0 and the fragment is written at the left-edge pixel. -/
theorem negative_fragment_written :
    fragNeg.position.x < 0 ∧ fragWritePixel 800 600 fragNeg = some (0, 2) := by
  have h1 : ⌊(-7/2 : ℚ)⌋ = -4 := by norm_num
  have h2 : ⌊(5/2 : ℚ)⌋ = 2 := by norm_num
  constructor
  · norm_num [fragNeg]
  · simp only [fragWritePixel, f32ToUsize, fragNeg, h1, h2]
    decide

/-- C8 (amended): a fragment is written only after its coordinates pass
the bounds check under the saturating `f32 as usize` conversion — every
written pixel is strictly inside the framebuffer, any fragment whose
converted coordinate reaches the width or height is discarded, and a
negative coordinate converts to 0 (so such fragments are clamped to the
edge pixel rather than discarded). -/
theorem write_stage_bounds : ∀ (width height : ℕ) (f : Fragment),
    (∀ x y, fragWritePixel width height f = some (x, y) → x < width ∧ y < height) ∧
    (width ≤ f32ToUsize f.position.x ∨ height ≤ f32ToUsize f.position.y →
      fragWritePixel width height f = none) ∧
    (f.position.x < 0 → f32ToUsize f.position.x = 0) := by
  intro w h f
  refine ⟨?_, ?_, ?_⟩
  · intro x y hxy
    by_cases hc : f32ToUsize f.position.x < w ∧ f32ToUsize f.position.y < h
    · simp only [fragWritePixel, if_pos hc, Option.some.injEq, Prod.mk.injEq] at hxy
      omega
    · simp [fragWritePixel, if_neg hc] at hxy
  · intro hor
    have hc : ¬(f32ToUsize f.position.x < w ∧ f32ToUsize f.position.y < h) := by omega
    simp [fragWritePixel, if_neg hc]
  · intro hneg
    have h1 : ⌊f.position.x⌋ ≤ 0 := by
      calc ⌊f.position.x⌋ ≤ ⌊(0 : ℚ)⌋ := Int.floor_le_floor hneg.le
        _ = 0 := Int.floor_zero
    simp [f32ToUsize, Int.toNat_of_nonpos h1]

/-- Witness for the amended C8: an in-bounds fragment is written at its
truncated coordinates, which the theorem certifies to be inside the
framebuffer. -/
theorem write_stage_bounds_witness :
    fragWritePixel 800 600 fragIn = some (3, 2) ∧ ((3:ℕ) < 800 ∧ (2:ℕ) < 600) := by
  have h1 : ⌊(7/2 : ℚ)⌋ = 3 := by norm_num
  have h2 : ⌊(5/2 : ℚ)⌋ = 2 := by norm_num
  have hw : fragWritePixel 800 600 fragIn = some (3, 2) := by
    simp only [fragWritePixel, f32ToUsize, fragIn, h1, h2]
    decide
  exact ⟨hw, (write_stage_bounds 800 600 fragIn).1 3 2 hw⟩

/-- C10: `fragment_shader` is a pure dispatch — for every material tag of
the closed set, its output is fully determined by the world position and
base color of the fragment and the time of the uniforms; any two calls
agreeing on those inputs return identical output. -/
theorem fragment_shader_deterministic : ∀ (ops : FOps) (tag : PlanetShaderType)
    (u1 u2 : Uniforms) (f1 f2 : Fragment),
    f1.world_position = f2.world_position → f1.color = f2.color →
    u1.time = u2.time →
    fragment_shader ops f1 u1 tag = fragment_shader ops f2 u2 tag := by
  intro ops tag u1 u2 f1 f2 hw hc ht
  cases tag <;>
    simp only [fragment_shader, shader_terra, shader_vulcan, shader_solarius,
      shader_nepturion, shader_mossar, hw, hc, ht]

/-- Witness for C10: two fragments sharing world position and base color
but differing in screen position and depth, under transform bundles
differing in every matrix but agreeing on time, shade identically. -/
theorem fragment_shader_deterministic_witness :
    fragment_shader opsW fragD1 uniId3 PlanetShaderType.Nepturion
      = fragment_shader opsW fragD2 uniTrans3 PlanetShaderType.Nepturion :=
  fragment_shader_deterministic opsW PlanetShaderType.Nepturion uniId3 uniTrans3
    fragD1 fragD2 rfl rfl rfl
